import Mathlib

/-!
Verification of the moderation bot (app/config.py, app/main.py).

The handler and configuration logic is embedded from `app/main.py` and
`app/config.py`.  The moderation primitives (`check_flood`,
`check_link_spam`) live in `app/moderation.py`, which is not part of the
available sources; those are modelled from the specification
(RateWindowTracker §4.1, RepeatDetector §4.2, LinkSpamMatcher §4.3,
ModerationEngine §4.4) and each such definition says so in its doc
comment.  Environment access (`os.getenv`) is modelled as a function
`String → Option String`; machine time is modelled by the explicit
`timestampSeconds` field of the spec's `MessageEvent`.
-/

set_option autoImplicit false

namespace FlyBot

/-- Python truthiness of an optional string: `None` and the empty string
are falsy, everything else is truthy. -/
def truthy : Option String → Bool
  | none => false
  | some s => s ≠ ""

/-- Python `a or b or ""` over two optional strings: the first truthy
value, else the empty string (used for `msg.text or msg.caption or ""`). -/
def pyOrText (t c : Option String) : String :=
  if truthy t then t.getD "" else if truthy c then c.getD "" else ""

/-- Whitespace stripping on a character list (both ends). -/
def stripChars (l : List Char) : List Char :=
  ((l.dropWhile Char.isWhitespace).reverse.dropWhile Char.isWhitespace).reverse

/-- Python `str.strip()`: remove whitespace from both ends. -/
def pyStrip (s : String) : String :=
  String.mk (stripChars s.toList)

/-- Python `str.split(",")` on a character list: split at every comma,
keeping empty pieces. -/
def splitComma : List Char → List (List Char)
  | [] => [[]]
  | ch :: rest =>
    if ch = ',' then [] :: splitComma rest
    else
      match splitComma rest with
      | [] => [[ch]]
      | t :: ts => (ch :: t) :: ts

/-- Python `str.rstrip("/")`: remove trailing slash characters
(config.py line 12, applied to `PUBLIC_URL`). -/
def rstripSlash (s : String) : String :=
  String.mk ((s.toList.reverse.dropWhile (fun ch => ch = '/')).reverse)

/-- Does `pat` occur at the head of `s`? (character-list version). -/
def listStarts : List Char → List Char → Bool
  | _, [] => true
  | [], _ :: _ => false
  | a :: as, b :: bs => a = b && listStarts as bs

/-- Does `pat` occur anywhere inside `s`? (character-list version). -/
def listHas (pat : List Char) : List Char → Bool
  | [] => listStarts [] pat
  | ch :: rest => listStarts (ch :: rest) pat || listHas pat rest

/-- Substring test on strings. -/
def strHas (s pat : String) : Bool :=
  listHas pat.toList s.toList

/-- config.py line 3-7: `_required(name)` returns the environment value and
raises `RuntimeError` when the variable is unset or empty (Python `if not v`). -/
def required (env : String → Option String) (name : String) : Except String String :=
  match env name with
  | none => Except.error ("Missing required env var: " ++ name)
  | some v => if v = "" then Except.error ("Missing required env var: " ++ name) else Except.ok v

/-- The two required settings loaded at startup (config.py lines 9-12):
`BOT_TOKEN` verbatim, `PUBLIC_URL` with trailing slashes stripped. -/
structure BotConfig where
  botToken : String
  publicUrl : String
  deriving DecidableEq

/-- config.py lines 9-12: load the required settings; any failure of
`_required` aborts the import (the process refuses to start). -/
def loadConfig (env : String → Option String) : Except String BotConfig :=
  match required env "BOT_TOKEN" with
  | Except.error e => Except.error e
  | Except.ok bot =>
    match required env "PUBLIC_URL" with
    | Except.error e => Except.error e
    | Except.ok url => Except.ok { botToken := bot, publicUrl := rstripSlash url }

/-- Python `str.isdigit()` on an already-stripped token, restricted to
ASCII digits: false on the empty string, true iff every character is a
digit. -/
def pyIsDigitStr (l : List Char) : Bool :=
  l ≠ [] && l.all Char.isDigit

/-- Numeric value of a digit string, as Python `int` computes it. -/
def digitsToNat (l : List Char) : Nat :=
  l.foldl (fun n ch => 10 * n + (ch.toNat - 48)) 0

/-- config.py lines 15-18: parse the `ADMIN_IDS` environment variable.
The raw value is stripped; when non-empty it is split on commas and each
token is stripped and kept only when it consists entirely of digits. -/
def parseAdminIds (raw0 : Option String) : List Int :=
  let raw := stripChars (raw0.getD "").toList
  if raw = [] then []
  else (splitComma raw).filterMap (fun x =>
    let t := stripChars x
    if pyIsDigitStr t then some ((digitsToNat t : Nat) : Int) else none)

/-- main.py lines 30-31: `_is_owner(uid)` tests membership in `ADMIN_IDS`. -/
def is_owner (uid : Int) (adminRaw : Option String) : Bool :=
  decide (uid ∈ parseAdminIds adminRaw)

/-- Python `text.split(" ", 1)` on a character list: the part before the
first space, and — when a space exists — everything after it. -/
def splitFirstSpace : List Char → List Char × Option (List Char)
  | [] => ([], none)
  | ch :: rest =>
    if ch = ' ' then ([], some rest)
    else
      let p := splitFirstSpace rest
      (ch :: p.1, p.2)

/-- Python `s.split(" ", 1)` on a string. -/
def pySplitOnce (s : String) : List Char × Option (List Char) :=
  splitFirstSpace s.toList

/-- main.py lines 67-77: `/setrules`.  Returns `some (chatId, value)` when
`set_rules(chatId, value)` is called, `none` when the handler returns
without touching the store.  The guards mirror the source: missing user
or chat, non-owner sender, no second part after `split(" ", 1)`, or a
second part that strips to empty, all return early. -/
def setrules_cmd (adminRaw : Option String) (user chat : Option Int) (msgText : String) :
    Option (Int × String) :=
  match user, chat with
  | some u, some c =>
    if is_owner u adminRaw then
      match (pySplitOnce msgText).2 with
      | none => none
      | some rest =>
        let arg := pyStrip (String.mk rest)
        if arg = "" then none else some (c, arg)
    else none
  | _, _ => none

/-- main.py lines 80-90: `/setwelcome`, same shape as `/setrules` but
calling `set_welcome`. -/
def setwelcome_cmd (adminRaw : Option String) (user chat : Option Int) (msgText : String) :
    Option (Int × String) :=
  match user, chat with
  | some u, some c =>
    if is_owner u adminRaw then
      match (pySplitOnce msgText).2 with
      | none => none
      | some rest =>
        let arg := pyStrip (String.mk rest)
        if arg = "" then none else some (c, arg)
    else none
  | _, _ => none

/-- config.py line 29: `LINK_SPAM_ENABLED = os.getenv("LINK_SPAM_ENABLED", "1") == "1"`. -/
def linkSpamEnabledEnv (v : Option String) : Bool :=
  v.getD "1" = "1"

/-- The moderation configuration constants (config.py lines 26-29). -/
structure ModConfig where
  floodWindowSec : Int
  floodMaxMsg : Nat
  repeatMax : Nat
  linkSpamEnabled : Bool
  deriving DecidableEq

/-- The default configuration values of config.py lines 26-29. -/
def defaultCfg : ModConfig :=
  { floodWindowSec := 8, floodMaxMsg := 6, repeatMax := 3, linkSpamEnabled := true }

/-- First-match lookup in an association list. -/
def lookupKey {κ α : Type} [DecidableEq κ] : List (κ × α) → κ → Option α
  | [], _ => none
  | p :: rest, k => if p.1 = k then some p.2 else lookupKey rest k

/-- Replace the binding for `k` (or append one) in an association list. -/
def setKey {κ α : Type} [DecidableEq κ] : List (κ × α) → κ → α → List (κ × α)
  | [], k, v => [(k, v)]
  | p :: rest, k, v => if p.1 = k then (k, v) :: rest else p :: setKey rest k v

/-- Modelled from the spec: the engine's mutable per-(chat, user) state
(§3 RateWindowState and LastMessageState); `app/moderation.py` holding the
concrete trackers is not among the available sources. -/
structure EngineState where
  rateWindows : List ((Int × Int) × List Int)
  lastMsgs : List ((Int × Int) × (String × Nat))
  deriving DecidableEq

/-- The engine state before any message was seen. -/
def emptyState : EngineState :=
  { rateWindows := [], lastMsgs := [] }

/-- The flood window currently stored for a key (empty when absent). -/
def windowOf (st : EngineState) (key : Int × Int) : List Int :=
  (lookupKey st.rateWindows key).getD []

/-- The last-message record currently stored for a key. -/
def lastOf (st : EngineState) (key : Int × Int) : Option (String × Nat) :=
  lookupKey st.lastMsgs key

/-- Modelled from the spec: the normalized `MessageEvent` (§3) consumed by
the engine. -/
structure MessageEvent where
  chatId : Int
  userId : Int
  text : String
  timestampSeconds : Int
  deriving DecidableEq

/-- Modelled from the spec §4.2: case- and whitespace-normalization of a
message text before repeat comparison. -/
def normalizeText (s : String) : String :=
  String.mk ((stripChars s.toList).map Char.toLower)

/-- Modelled from the spec §4.1 (`RateWindowTracker.recordAndCheck`,
`app/moderation.py` is missing): record the timestamp, discard entries
older than `floodWindowSec`, and fire when the remaining count (this
message included) exceeds `floodMaxMsg`. -/
def rateRecordAndCheck (cfg : ModConfig) (st : EngineState) (key : Int × Int) (ts : Int) :
    Bool × EngineState :=
  let kept := ((windowOf st key) ++ [ts]).filter (fun t => decide (ts - cfg.floodWindowSec ≤ t))
  (decide (cfg.floodMaxMsg < kept.length),
   { st with rateWindows := setKey st.rateWindows key kept })

/-- Modelled from the spec §4.2 (`RepeatDetector.recordAndCheck`,
`app/moderation.py` is missing): compare the normalized text with the
stored last text, increment the repeat count on a match and reset it to 1
otherwise, and fire when the count reaches `repeatMax`. -/
def repeatRecordAndCheck (cfg : ModConfig) (st : EngineState) (key : Int × Int) (text : String) :
    Bool × EngineState :=
  let norm := normalizeText text
  match lastOf st key with
  | some p =>
    if norm = p.1 then
      (decide (cfg.repeatMax ≤ p.2 + 1),
       { st with lastMsgs := setKey st.lastMsgs key (norm, p.2 + 1) })
    else
      (decide (cfg.repeatMax ≤ 1),
       { st with lastMsgs := setKey st.lastMsgs key (norm, 1) })
  | none =>
    (decide (cfg.repeatMax ≤ 1),
     { st with lastMsgs := setKey st.lastMsgs key (norm, 1) })

/-- Modelled from the spec §4.3: URL recognition of the LinkSpamMatcher —
a lowercase scan for scheme, bare-domain and invitation-link markers. -/
def containsUrl (text : String) : Bool :=
  let t := text.toList.map Char.toLower
  listHas "http://".toList t || listHas "https://".toList t ||
    listHas "www.".toList t || listHas "t.me/".toList t

/-- Modelled from the spec §4.3 (`LinkSpamMatcher.isSpam`,
`app/moderation.py` is missing): always false when disabled, otherwise
true exactly when the text contains a recognizable URL. -/
def check_link_spam (cfg : ModConfig) (text : String) : Bool :=
  cfg.linkSpamEnabled && containsUrl text

/-- Modelled from the spec §4.4 steps (1)-(2) (`check_flood` of
`app/moderation.py` is missing): the rate check runs first and
short-circuits; only when it does not fire is the repeat detector
consulted (and its state updated). Either firing is a flood violation. -/
def check_flood (cfg : ModConfig) (st : EngineState) (key : Int × Int) (ts : Int)
    (text : String) : Bool × EngineState :=
  let r := rateRecordAndCheck cfg st key ts
  if r.1 then (true, r.2) else repeatRecordAndCheck cfg r.2 key text

/-- Modelled from the spec §4.4: the engine's verdict for one message. -/
inductive Verdict where
  | None
  | Flood
  | LinkSpam
  deriving DecidableEq

/-- Modelled from the spec §4.4 (`ModerationEngine.evaluate`): flood/repeat
first, then — only when no flood violation — the link-spam check. -/
def evaluate (cfg : ModConfig) (st : EngineState) (ev : MessageEvent) :
    Verdict × EngineState :=
  let r := check_flood cfg st (ev.chatId, ev.userId) ev.timestampSeconds ev.text
  if r.1 then (Verdict.Flood, r.2)
  else if check_link_spam cfg ev.text then (Verdict.LinkSpam, r.2)
  else (Verdict.None, r.2)

/-- Verdicts of a sequence of messages, threading the engine state. -/
def runVerdicts (cfg : ModConfig) (st : EngineState) : List MessageEvent → List Verdict
  | [] => []
  | e :: es => (evaluate cfg st e).1 :: runVerdicts cfg (evaluate cfg st e).2 es

/-- A Telegram message as the handler sees it: optional text and caption. -/
structure PyMessage where
  text : Option String
  caption : Option String
  deriving DecidableEq

/-- An update as the handler sees it: `effective_message`,
`effective_chat` id and `effective_user` id, each possibly absent. -/
structure PyUpdate where
  message : Option PyMessage
  chat : Option Int
  user : Option Int
  deriving DecidableEq

/-- Result of `context.bot.get_chat_member` in main.py line 167: either a
status string, or a raised exception. -/
inductive MemberLookup where
  | ok (status : String)
  | err
  deriving DecidableEq

/-- The two moderation checks `on_message` can consult. -/
inductive CheckName where
  | floodCheck
  | linkCheck
  deriving DecidableEq

/-- Observable effect of one `on_message` call: the `apply_punishment`
reason labels issued, the checks consulted in order, the text handed to
the checks (when any ran), and the resulting engine state. -/
structure HandlerResult where
  punishments : List String
  checksRun : List CheckName
  textUsed : Option String
  state : EngineState
  deriving DecidableEq

/-- The handler returning without consulting any check: no punishment and
an unchanged engine state. -/
def noop (st : EngineState) : HandlerResult :=
  { punishments := [], checksRun := [], textUsed := none, state := st }

/-- main.py line 162: the guard `not msg.text and not msg.caption`
(negated): the message carries a truthy text or caption. -/
def hasContent (m : PyMessage) : Bool :=
  truthy m.text || truthy m.caption

/-- main.py lines 166-171: the admin bypass fires only when the member
lookup succeeds with status `administrator` or `creator`; an exception is
swallowed and moderation proceeds. -/
def bypasses : MemberLookup → Bool
  | MemberLookup.ok s => s = "administrator" || s = "creator"
  | MemberLookup.err => false

/-- main.py lines 173-179: the moderation pipeline proper. `check_flood`
first — on fire, punish with the flood label and stop; otherwise
`check_link_spam` — on fire, punish with the link label; otherwise
nothing. -/
def moderate (cfg : ModConfig) (st : EngineState) (chatId userId : Int) (text : String)
    (ts : Int) : HandlerResult :=
  let r := check_flood cfg st (chatId, userId) ts text
  if r.1 then
    { punishments := ["Flood/Repeated messages"], checksRun := [CheckName.floodCheck],
      textUsed := some text, state := r.2 }
  else if check_link_spam cfg text then
    { punishments := ["Link spam / unauthorized link"],
      checksRun := [CheckName.floodCheck, CheckName.linkCheck],
      textUsed := some text, state := r.2 }
  else
    { punishments := [], checksRun := [CheckName.floodCheck, CheckName.linkCheck],
      textUsed := some text, state := r.2 }

/-- main.py lines 156-179: the `on_message` handler. Returns early when
message, chat or user is absent (lines 160-161) or the message has
neither truthy text nor truthy caption (lines 162-163); then applies the
admin bypass (lines 166-171); then assembles
`text = msg.text or msg.caption or ""` and moderates (lines 173-179). -/
def on_message (cfg : ModConfig) (st : EngineState) (lookup : MemberLookup)
    (upd : PyUpdate) (ts : Int) : HandlerResult :=
  match upd.message, upd.chat, upd.user with
  | some msg, some chatId, some userId =>
    if hasContent msg then
      if bypasses lookup then noop st
      else moderate cfg st chatId userId (pyOrText msg.text msg.caption) ts
    else noop st
  | _, _, _ => noop st

/-- main.py lines 160-163: the update shapes that reach the moderation
pipeline at all — message, chat and user present and the message has
truthy text or caption. -/
def wellFormed (upd : PyUpdate) : Bool :=
  match upd.message, upd.chat, upd.user with
  | some msg, some _, some _ => hasContent msg
  | _, _, _ => false

/-- The spec's example scenario: seven messages from one user within five
seconds, with pairwise distinct texts. -/
def demoFloodEvents : List MessageEvent :=
  [ { chatId := 1, userId := 2, text := "m1", timestampSeconds := 0 },
    { chatId := 1, userId := 2, text := "m2", timestampSeconds := 1 },
    { chatId := 1, userId := 2, text := "m3", timestampSeconds := 2 },
    { chatId := 1, userId := 2, text := "m4", timestampSeconds := 3 },
    { chatId := 1, userId := 2, text := "m5", timestampSeconds := 4 },
    { chatId := 1, userId := 2, text := "m6", timestampSeconds := 4 },
    { chatId := 1, userId := 2, text := "m7", timestampSeconds := 4 } ]

/-- Seven identical messages from one user within five seconds. -/
def demoRepeatEvents : List MessageEvent :=
  [ { chatId := 1, userId := 2, text := "hi", timestampSeconds := 0 },
    { chatId := 1, userId := 2, text := "hi", timestampSeconds := 1 },
    { chatId := 1, userId := 2, text := "hi", timestampSeconds := 2 },
    { chatId := 1, userId := 2, text := "hi", timestampSeconds := 3 },
    { chatId := 1, userId := 2, text := "hi", timestampSeconds := 4 },
    { chatId := 1, userId := 2, text := "hi", timestampSeconds := 4 },
    { chatId := 1, userId := 2, text := "hi", timestampSeconds := 4 } ]

/-- The flood-threshold claim exactly as stated, at the default
configuration: for every run of more than `FLOOD_MAX_MSG` messages of one
user lying inside one `FLOOD_WINDOW_SEC` window, no message before the
threshold-crossing one (the `FLOOD_MAX_MSG + 1`-st) receives a `Flood`
verdict. -/
def floodClaimAsStated : Prop :=
  ∀ (c u T : Int) (events : List MessageEvent),
    (∀ e ∈ events, e.chatId = c ∧ e.userId = u) →
    (∀ e ∈ events, T ≤ e.timestampSeconds ∧ e.timestampSeconds ≤ T + defaultCfg.floodWindowSec) →
    defaultCfg.floodMaxMsg < events.length →
    ∀ k < defaultCfg.floodMaxMsg,
      (runVerdicts defaultCfg emptyState events).get? k ≠ some Verdict.Flood

/-! ## Helper lemmas -/

lemma lookupKey_setKey_self {κ α : Type} [DecidableEq κ] (m : List (κ × α)) (k : κ) (v : α) :
    lookupKey (setKey m k v) k = some v := by
  induction m with
  | nil => simp [setKey, lookupKey]
  | cons p rest ih =>
    by_cases h : p.1 = k
    · simp [setKey, lookupKey, h]
    · simp [setKey, lookupKey, h, ih]

/-! ## C3: link-spam check disabled and enabled -/

/-- C3: when `LINK_SPAM_ENABLED` is computed from an environment value
other than "1" it is false; a disabled matcher returns false for every
text, and an enabled matcher returns true for every text containing a
recognizable URL. -/
theorem c3_link_spam_switch (v : Option String) (cfg : ModConfig) (text : String) :
    (v.getD "1" ≠ "1" → linkSpamEnabledEnv v = false) ∧
    (cfg.linkSpamEnabled = false → check_link_spam cfg text = false) ∧
    (cfg.linkSpamEnabled = true → containsUrl text = true → check_link_spam cfg text = true) := by
  refine ⟨?_, ?_, ?_⟩
  · intro h
    simp [linkSpamEnabledEnv, h]
  · intro h
    simp [check_link_spam, h]
  · intro h hu
    simp [check_link_spam, h, hu]

/-- Witness for C3 at concrete inputs: disabled matcher ignores a URL,
enabled matcher flags it. -/
theorem c3_witness :
    linkSpamEnabledEnv (some "0") = false ∧
    check_link_spam { defaultCfg with linkSpamEnabled := false } "go https://evil.example" = false ∧
    check_link_spam defaultCfg "go https://evil.example" = true := by
  refine ⟨?_, ?_, ?_⟩
  · exact (c3_link_spam_switch (some "0") defaultCfg "").1 (by decide)
  · exact (c3_link_spam_switch none { defaultCfg with linkSpamEnabled := false }
      "go https://evil.example").2.1 (by decide)
  · exact (c3_link_spam_switch none defaultCfg "go https://evil.example").2.2 (by decide) (by decide)

/-! ## C6: required configuration -/

/-- C6: configuration loading fails when `BOT_TOKEN` or `PUBLIC_URL` is
unset or empty, and otherwise yields the variable values, with
`PUBLIC_URL` stripped of trailing slashes. -/
theorem c6_required_config (env : String → Option String) :
    ((env "BOT_TOKEN" = none ∨ env "BOT_TOKEN" = some "") →
      ∃ e, loadConfig env = Except.error e) ∧
    ((env "PUBLIC_URL" = none ∨ env "PUBLIC_URL" = some "") →
      ∃ e, loadConfig env = Except.error e) ∧
    (∀ b p, env "BOT_TOKEN" = some b → b ≠ "" → env "PUBLIC_URL" = some p → p ≠ "" →
      loadConfig env = Except.ok { botToken := b, publicUrl := rstripSlash p }) := by
  refine ⟨?_, ?_, ?_⟩
  · intro h
    refine ⟨"Missing required env var: BOT_TOKEN", ?_⟩
    unfold loadConfig required
    rcases h with h | h <;> rw [h] <;> rfl
  · intro h
    cases hbot : required env "BOT_TOKEN" with
    | error e =>
      refine ⟨e, ?_⟩
      unfold loadConfig
      rw [hbot]
    | ok b =>
      refine ⟨"Missing required env var: PUBLIC_URL", ?_⟩
      unfold loadConfig
      rw [hbot]
      unfold required
      rcases h with h | h <;> rw [h] <;> rfl
  · intro b p hb hbne hp hpne
    unfold loadConfig required
    rw [hb, hp]
    simp [hbne, hpne]

/-- Witness for C6: with both variables set and non-empty, the loaded
config holds the token verbatim and the URL without trailing slashes. -/
theorem c6_witness :
    loadConfig (fun n => if n = "BOT_TOKEN" then some "tok123" else
        if n = "PUBLIC_URL" then some "https://app.fly.dev///" else none) =
      Except.ok { botToken := "tok123", publicUrl := "https://app.fly.dev" } := by
  have h := (c6_required_config (fun n => if n = "BOT_TOKEN" then some "tok123" else
      if n = "PUBLIC_URL" then some "https://app.fly.dev///" else none)).2.2
    "tok123" "https://app.fly.dev///" (by decide) (by decide) (by decide) (by decide)
  rw [h]
  have hurl : rstripSlash "https://app.fly.dev///" = "https://app.fly.dev" := by decide
  rw [hurl]

/-! ## C8: owner determination from ADMIN_IDS -/

/-- C8: `_is_owner uid` holds iff some comma-separated token of
`ADMIN_IDS` strips to a non-empty all-digit string whose numeric value is
`uid`; tokens with non-digit characters are dropped, and with the
variable unset the admin set is empty. -/
theorem c8_owner_characterization (raw0 : Option String) (uid : Int) :
    (is_owner uid raw0 = true ↔
      ∃ tok ∈ splitComma (stripChars (raw0.getD "").toList),
        pyIsDigitStr (stripChars tok) = true ∧
          ((digitsToNat (stripChars tok) : Nat) : Int) = uid) ∧
    (raw0 = none → is_owner uid raw0 = false) := by
  have hmain : ∀ r : Option String, is_owner uid r = true ↔
      ∃ tok ∈ splitComma (stripChars (r.getD "").toList),
        pyIsDigitStr (stripChars tok) = true ∧
          ((digitsToNat (stripChars tok) : Nat) : Int) = uid := by
    intro r
    rw [is_owner, decide_eq_true_iff]
    unfold parseAdminIds
    by_cases hraw : stripChars (r.getD "").toList = []
    · rw [if_pos hraw, hraw]
      constructor
      · intro h
        exact absurd h (List.not_mem_nil uid)
      · intro h
        rcases h with ⟨tok, htok, hdig, _⟩
        simp only [splitComma, List.mem_singleton] at htok
        subst htok
        simp [stripChars, pyIsDigitStr] at hdig
    · rw [if_neg hraw, List.mem_filterMap]
      constructor
      · rintro ⟨tok, htok, hval⟩
        by_cases hd : pyIsDigitStr (stripChars tok) = true
        · rw [if_pos hd, Option.some_inj] at hval
          exact ⟨tok, htok, hd, hval⟩
        · rw [if_neg hd] at hval
          exact absurd hval (Option.noConfusion)
      · rintro ⟨tok, htok, hd, hval⟩
        exact ⟨tok, htok, by rw [if_pos hd, hval]⟩
  constructor
  · exact hmain raw0
  · intro h
    subst h
    rw [Bool.eq_false_iff]
    intro htrue
    rcases (hmain none).mp htrue with ⟨tok, htok, hdig, _⟩
    have : splitComma (stripChars (Option.getD (α := String) none "").toList) = [[]] := by decide
    rw [this, List.mem_singleton] at htok
    subst htok
    simp [stripChars, pyIsDigitStr] at hdig

/-- Witness for C8: id 7 is recognized from a messy `ADMIN_IDS` value,
via the characterization. -/
theorem c8_witness : is_owner 7 (some "5, x, 7") = true := by
  exact (c8_owner_characterization (some "5, x, 7") 7).1.mpr (by decide)

/-! ## C10: /setrules and /setwelcome guards -/

/-- C10: the settings store is untouched when the sender is missing, not
an owner, or supplies no non-whitespace argument; an owner with an
argument stores exactly the whitespace-stripped argument, for both
`/setrules` and `/setwelcome`. -/
theorem c10_set_commands (adminRaw : Option String) (user chat : Option Int) (msgText : String) :
    (∀ u, user = some u → is_owner u adminRaw = false →
      setrules_cmd adminRaw user chat msgText = none ∧
      setwelcome_cmd adminRaw user chat msgText = none) ∧
    (user = none →
      setrules_cmd adminRaw user chat msgText = none ∧
      setwelcome_cmd adminRaw user chat msgText = none) ∧
    (chat = none →
      setrules_cmd adminRaw user chat msgText = none ∧
      setwelcome_cmd adminRaw user chat msgText = none) ∧
    ((pySplitOnce msgText).2 = none →
      setrules_cmd adminRaw user chat msgText = none ∧
      setwelcome_cmd adminRaw user chat msgText = none) ∧
    (∀ rest, (pySplitOnce msgText).2 = some rest → pyStrip (String.mk rest) = "" →
      setrules_cmd adminRaw user chat msgText = none ∧
      setwelcome_cmd adminRaw user chat msgText = none) ∧
    (∀ u c rest, user = some u → chat = some c → is_owner u adminRaw = true →
      (pySplitOnce msgText).2 = some rest → pyStrip (String.mk rest) ≠ "" →
      setrules_cmd adminRaw user chat msgText = some (c, pyStrip (String.mk rest)) ∧
      setwelcome_cmd adminRaw user chat msgText = some (c, pyStrip (String.mk rest))) := by
  refine ⟨?_, ?_, ?_, ?_, ?_, ?_⟩
  · intro u hu hown
    subst hu
    cases chat with
    | none => exact ⟨rfl, rfl⟩
    | some c => simp [setrules_cmd, setwelcome_cmd, hown]
  · intro hu
    subst hu
    exact ⟨rfl, rfl⟩
  · intro hc
    subst hc
    cases user with
    | none => exact ⟨rfl, rfl⟩
    | some u => simp [setrules_cmd, setwelcome_cmd]
  · intro hsplit
    cases user with
    | none => exact ⟨rfl, rfl⟩
    | some u =>
      cases chat with
      | none => exact ⟨rfl, rfl⟩
      | some c => simp [setrules_cmd, setwelcome_cmd, hsplit]
  · intro rest hsplit hempty
    cases user with
    | none => exact ⟨rfl, rfl⟩
    | some u =>
      cases chat with
      | none => exact ⟨rfl, rfl⟩
      | some c => simp [setrules_cmd, setwelcome_cmd, hsplit, hempty]
  · intro u c rest hu hc hown hsplit hne
    subst hu
    subst hc
    simp [setrules_cmd, setwelcome_cmd, hown, hsplit, hne]

/-- Witness for C10: an owner's `/setrules` call stores the stripped
argument. -/
theorem c10_witness :
    setrules_cmd (some "42") (some 42) (some 99) "/setrules  Be nice  " = some (99, "Be nice") ∧
    setwelcome_cmd (some "42") (some 42) (some 99) "/setrules  Be nice  " = some (99, "Be nice") := by
  have h := (c10_set_commands (some "42") (some 42) (some 99) "/setrules  Be nice  ").2.2.2.2.2
    42 99 " Be nice  ".toList rfl rfl (by decide) (by decide) (by decide)
  constructor
  · rw [h.1]
    decide
  · rw [h.2]
    decide

/-! ## C1: fixed, short-circuiting evaluation order -/

/-- C1: for a message with content that is not bypassed, the flood check
is consulted first; when it fires the punishment is the flood label and
the link-spam check is never evaluated; only when it does not fire is the
link-spam check evaluated, punishing with the link label when true and
not at all otherwise; at most one punishment per message. -/
theorem c1_evaluation_order (cfg : ModConfig) (st : EngineState) (msg : PyMessage)
    (c u : Int) (lookup : MemberLookup) (ts : Int)
    (hcontent : hasContent msg = true) (hpass : bypasses lookup = false) :
    ((check_flood cfg st (c, u) ts (pyOrText msg.text msg.caption)).1 = true →
      (on_message cfg st lookup ⟨some msg, some c, some u⟩ ts).punishments =
        ["Flood/Repeated messages"] ∧
      CheckName.linkCheck ∉ (on_message cfg st lookup ⟨some msg, some c, some u⟩ ts).checksRun) ∧
    ((check_flood cfg st (c, u) ts (pyOrText msg.text msg.caption)).1 = false →
      (on_message cfg st lookup ⟨some msg, some c, some u⟩ ts).checksRun =
        [CheckName.floodCheck, CheckName.linkCheck] ∧
      (check_link_spam cfg (pyOrText msg.text msg.caption) = true →
        (on_message cfg st lookup ⟨some msg, some c, some u⟩ ts).punishments =
          ["Link spam / unauthorized link"]) ∧
      (check_link_spam cfg (pyOrText msg.text msg.caption) = false →
        (on_message cfg st lookup ⟨some msg, some c, some u⟩ ts).punishments = [])) ∧
    (on_message cfg st lookup ⟨some msg, some c, some u⟩ ts).punishments.length ≤ 1 := by
  have hmsg : on_message cfg st lookup ⟨some msg, some c, some u⟩ ts =
      moderate cfg st c u (pyOrText msg.text msg.caption) ts := by
    simp [on_message, hcontent, hpass]
  rw [hmsg]
  refine ⟨?_, ?_, ?_⟩
  · intro hf
    simp only [moderate]
    rw [hf]
    simp
  · intro hf
    simp only [moderate]
    rw [hf]
    cases hl : check_link_spam cfg (pyOrText msg.text msg.caption) <;> simp [hl]
  · simp only [moderate]
    cases hf : (check_flood cfg st (c, u) ts (pyOrText msg.text msg.caption)).1 <;>
      cases hl : check_link_spam cfg (pyOrText msg.text msg.caption) <;> simp [hf, hl]

/-- Witness for C1: a flood-free state with a link-bearing message gets
exactly the link punishment after the flood check ran first. -/
theorem c1_witness :
    (on_message defaultCfg emptyState MemberLookup.err
      ⟨some ⟨some "see t.me/spam", none⟩, some 1, some 2⟩ 0).checksRun =
        [CheckName.floodCheck, CheckName.linkCheck] ∧
    (on_message defaultCfg emptyState MemberLookup.err
      ⟨some ⟨some "see t.me/spam", none⟩, some 1, some 2⟩ 0).punishments =
        ["Link spam / unauthorized link"] := by
  have h := (c1_evaluation_order defaultCfg emptyState ⟨some "see t.me/spam", none⟩ 1 2
    MemberLookup.err 0 (by decide) (by decide)).2.1 (by decide)
  exact ⟨h.1, h.2.1 (by decide)⟩

/-! ## C4: admin bypass is upstream of the engine -/

/-- C4: a lookup status of administrator or creator makes the handler
return before any check (upstream filtering), and for every other status
the handler's result is exactly the moderation pipeline applied to the
assembled event — the engine receives no administrator information. -/
theorem c4_admin_bypass_upstream (cfg : ModConfig) (st : EngineState) (msg : PyMessage)
    (c u : Int) (ts : Int) :
    (∀ s, (s = "administrator" ∨ s = "creator") →
      on_message cfg st (MemberLookup.ok s) ⟨some msg, some c, some u⟩ ts = noop st) ∧
    (hasContent msg = true → ∀ s, ¬(s = "administrator" ∨ s = "creator") →
      on_message cfg st (MemberLookup.ok s) ⟨some msg, some c, some u⟩ ts =
        moderate cfg st c u (pyOrText msg.text msg.caption) ts) := by
  constructor
  · intro s hs
    have hb : bypasses (MemberLookup.ok s) = true := by
      rcases hs with h | h <;> simp [bypasses, h]
    cases hc : hasContent msg <;> simp [on_message, hc, hb]
  · intro hcontent s hs
    have hb : bypasses (MemberLookup.ok s) = false := by
      simp [bypasses]
      exact ⟨fun h => hs (Or.inl h), fun h => hs (Or.inr h)⟩
    simp [on_message, hcontent, hb]

/-- Witness for C4: an administrator's message is dropped before any
check; a plain member's identical message is moderated. -/
theorem c4_witness :
    on_message defaultCfg emptyState (MemberLookup.ok "administrator")
      ⟨some ⟨some "see t.me/x", none⟩, some 1, some 2⟩ 0 = noop emptyState ∧
    on_message defaultCfg emptyState (MemberLookup.ok "member")
      ⟨some ⟨some "see t.me/x", none⟩, some 1, some 2⟩ 0 =
      moderate defaultCfg emptyState 1 2 (pyOrText (some "see t.me/x") none) 0 := by
  constructor
  · exact (c4_admin_bypass_upstream defaultCfg emptyState ⟨some "see t.me/x", none⟩ 1 2 0).1
      "administrator" (Or.inl rfl)
  · exact (c4_admin_bypass_upstream defaultCfg emptyState ⟨some "see t.me/x", none⟩ 1 2 0).2
      (by decide) "member" (by decide)

/-! ## C5: malformed updates are rejected before any check -/

/-- C5: an update lacking message, chat, user, or truthy text/caption
leads to an immediate return — no check runs, no punishment is issued and
the engine state is unchanged; and whenever checks do run, the text they
receive is assembled as `msg.text or msg.caption or ""`. -/
theorem c5_malformed_rejected (cfg : ModConfig) (st : EngineState) (lookup : MemberLookup)
    (upd : PyUpdate) (ts : Int) :
    (wellFormed upd = false → on_message cfg st lookup upd ts = noop st) ∧
    (∀ msg, upd.message = some msg → (on_message cfg st lookup upd ts).checksRun ≠ [] →
      (on_message cfg st lookup upd ts).textUsed = some (pyOrText msg.text msg.caption)) := by
  obtain ⟨om, oc, ou⟩ := upd
  constructor
  · intro hwf
    cases om with
    | none => rfl
    | some msg =>
      cases oc with
      | none => rfl
      | some c =>
        cases ou with
        | none => rfl
        | some u =>
          have hc : hasContent msg = false := by simpa [wellFormed] using hwf
          simp [on_message, hc]
  · intro msg hmsg
    have hom : om = some msg := by simpa using hmsg
    subst hom
    cases oc with
    | none => intro h; exact absurd rfl h
    | some c =>
      cases ou with
      | none => intro h; exact absurd rfl h
      | some u =>
        cases hc : hasContent msg with
        | false => intro h; simp [on_message, hc, noop] at h
        | true =>
          cases hb : bypasses lookup with
          | true => intro h; simp [on_message, hc, hb, noop] at h
          | false =>
            intro _
            have hmod : on_message cfg st lookup ⟨some msg, some c, some u⟩ ts =
                moderate cfg st c u (pyOrText msg.text msg.caption) ts := by
              simp [on_message, hc, hb]
            rw [hmod]
            simp only [moderate]
            cases hf : (check_flood cfg st (c, u) ts (pyOrText msg.text msg.caption)).1 <;>
              cases hl : check_link_spam cfg (pyOrText msg.text msg.caption) <;> simp [hf, hl]

/-- Witness for C5: an update whose message has neither text nor caption
is a no-op. -/
theorem c5_witness :
    on_message defaultCfg emptyState MemberLookup.err ⟨some ⟨none, some ""⟩, some 1, some 2⟩ 0 =
      noop emptyState := by
  exact (c5_malformed_rejected defaultCfg emptyState MemberLookup.err
    ⟨some ⟨none, some ""⟩, some 1, some 2⟩ 0).1 (by decide)

/-! ## C7: punishment reason labels -/

/-- C7: for a message that reaches moderation, the flood label is issued
iff the flood check fired, the link label iff the flood check did not
fire and the link check fired, and no other label ever appears. -/
theorem c7_reason_labels (cfg : ModConfig) (st : EngineState) (msg : PyMessage)
    (c u : Int) (lookup : MemberLookup) (ts : Int)
    (hcontent : hasContent msg = true) (hpass : bypasses lookup = false) :
    (∀ l ∈ (on_message cfg st lookup ⟨some msg, some c, some u⟩ ts).punishments,
      l = "Flood/Repeated messages" ∨ l = "Link spam / unauthorized link") ∧
    ("Flood/Repeated messages" ∈
        (on_message cfg st lookup ⟨some msg, some c, some u⟩ ts).punishments ↔
      (check_flood cfg st (c, u) ts (pyOrText msg.text msg.caption)).1 = true) ∧
    ("Link spam / unauthorized link" ∈
        (on_message cfg st lookup ⟨some msg, some c, some u⟩ ts).punishments ↔
      ((check_flood cfg st (c, u) ts (pyOrText msg.text msg.caption)).1 = false ∧
        check_link_spam cfg (pyOrText msg.text msg.caption) = true)) := by
  have hmsg : on_message cfg st lookup ⟨some msg, some c, some u⟩ ts =
      moderate cfg st c u (pyOrText msg.text msg.caption) ts := by
    simp [on_message, hcontent, hpass]
  rw [hmsg]
  simp only [moderate]
  cases hf : (check_flood cfg st (c, u) ts (pyOrText msg.text msg.caption)).1 <;>
    cases hl : check_link_spam cfg (pyOrText msg.text msg.caption) <;>
      simp [hf, hl]

/-- Witness for C7: a repeat-flooding third message gets exactly the
flood label. -/
theorem c7_witness :
    "Flood/Repeated messages" ∈
      (on_message defaultCfg
        (evaluate defaultCfg (evaluate defaultCfg emptyState
          { chatId := 1, userId := 2, text := "hi", timestampSeconds := 0 }).2
          { chatId := 1, userId := 2, text := "hi", timestampSeconds := 1 }).2
        MemberLookup.err ⟨some ⟨some "hi", none⟩, some 1, some 2⟩ 2).punishments := by
  exact ((c7_reason_labels defaultCfg
    (evaluate defaultCfg (evaluate defaultCfg emptyState
      { chatId := 1, userId := 2, text := "hi", timestampSeconds := 0 }).2
      { chatId := 1, userId := 2, text := "hi", timestampSeconds := 1 }).2
    ⟨some "hi", none⟩ 1 2 MemberLookup.err 2 (by decide) (by decide)).2.1).mpr (by decide)

/-! ## C9: member-lookup failure is suppressed -/

/-- C9: a raised `get_chat_member` lookup behaves exactly like a plain
member status — the message is still moderated — and for any update with
content the checks do run under a failed lookup. -/
theorem c9_lookup_failure_moderates (cfg : ModConfig) (st : EngineState) (ts : Int) :
    (∀ upd, on_message cfg st MemberLookup.err upd ts =
      on_message cfg st (MemberLookup.ok "member") upd ts) ∧
    (∀ msg (c u : Int), hasContent msg = true →
      (on_message cfg st MemberLookup.err ⟨some msg, some c, some u⟩ ts).checksRun ≠ []) := by
  constructor
  · intro upd
    obtain ⟨om, oc, ou⟩ := upd
    cases om with
    | none => rfl
    | some msg =>
      cases oc with
      | none => rfl
      | some c =>
        cases ou with
        | none => rfl
        | some u =>
          have : bypasses MemberLookup.err = bypasses (MemberLookup.ok "member") := by decide
          simp [on_message, this]
  · intro msg c u hcontent
    have hmod : on_message cfg st MemberLookup.err ⟨some msg, some c, some u⟩ ts =
        moderate cfg st c u (pyOrText msg.text msg.caption) ts := by
      simp [on_message, hcontent, bypasses]
    rw [hmod]
    simp only [moderate]
    cases hf : (check_flood cfg st (c, u) ts (pyOrText msg.text msg.caption)).1 <;>
      cases hl : check_link_spam cfg (pyOrText msg.text msg.caption) <;> simp [hf, hl]

/-- Witness for C9: with a failing lookup the checks still run on a
content-bearing message. -/
theorem c9_witness :
    (on_message defaultCfg emptyState MemberLookup.err
      ⟨some ⟨some "hello", none⟩, some 1, some 2⟩ 0).checksRun ≠ [] := by
  exact (c9_lookup_failure_moderates defaultCfg emptyState 0).2 ⟨some "hello", none⟩ 1 2 (by decide)

/-! ## C2: flood threshold crossing -/

lemma windowOf_setRate (st : EngineState) (key : Int × Int) (kept : List Int) :
    windowOf { st with rateWindows := setKey st.rateWindows key kept } key = kept := by
  simp [windowOf, lookupKey_setKey_self]

lemma rate_step_full (cfg : ModConfig) (st : EngineState) (key : Int × Int) (ts : Int)
    (hkeep : ∀ t ∈ windowOf st key, ts - cfg.floodWindowSec ≤ t)
    (hwin : ts - cfg.floodWindowSec ≤ ts) :
    rateRecordAndCheck cfg st key ts =
      (decide (cfg.floodMaxMsg < (windowOf st key).length + 1),
       { st with rateWindows := setKey st.rateWindows key (windowOf st key ++ [ts]) }) := by
  have hfilter : ((windowOf st key) ++ [ts]).filter
      (fun t => decide (ts - cfg.floodWindowSec ≤ t)) = windowOf st key ++ [ts] := by
    rw [List.filter_eq_self]
    intro a ha
    rw [decide_eq_true_eq]
    rcases List.mem_append.mp ha with h | h
    · exact hkeep a h
    · rw [List.mem_singleton] at h
      rw [h]
      exact hwin
  simp only [rateRecordAndCheck]
  rw [hfilter]
  simp [List.length_append]

lemma repeat_noFire (cfg : ModConfig) (st : EngineState) (key : Int × Int) (text : String)
    (hrep : 2 ≤ cfg.repeatMax)
    (hlast : ∀ p, lastOf st key = some p → p.1 ≠ normalizeText text) :
    repeatRecordAndCheck cfg st key text =
      (false, { st with lastMsgs := setKey st.lastMsgs key (normalizeText text, 1) }) := by
  have hdec : decide (cfg.repeatMax ≤ 1) = false := by
    rw [decide_eq_false_iff_not]
    omega
  simp only [repeatRecordAndCheck]
  cases hl : lastOf st key with
  | none => simp [hdec]
  | some p =>
    have hne : ¬ (normalizeText text = p.1) := fun h => hlast p hl h.symm
    simp [hne, hdec]

/-- One engine step when the rate window fires: the verdict is `Flood`,
the repeat state is untouched and the window records the timestamp. -/
lemma evaluate_fire (cfg : ModConfig) (st : EngineState) (e : MessageEvent) (c u : Int)
    (hec : e.chatId = c) (heu : e.userId = u)
    (hkeep : ∀ t ∈ windowOf st (c, u), e.timestampSeconds - cfg.floodWindowSec ≤ t)
    (hwin : e.timestampSeconds - cfg.floodWindowSec ≤ e.timestampSeconds)
    (hfire : cfg.floodMaxMsg < (windowOf st (c, u)).length + 1) :
    evaluate cfg st e =
      (Verdict.Flood,
       { st with rateWindows := (setKey st.rateWindows (c, u)
           (windowOf st (c, u) ++ [e.timestampSeconds])) }) := by
  have hrate := rate_step_full cfg st (c, u) e.timestampSeconds hkeep hwin
  simp only [evaluate, check_flood, hec, heu]
  rw [hrate]
  simp [hfire]

/-- One engine step when the rate window does not fire and the previous
stored text differs from this message's normalized text: no `Flood`, the
window records the timestamp and the repeat state resets to count 1. -/
lemma evaluate_nofire (cfg : ModConfig) (st : EngineState) (e : MessageEvent) (c u : Int)
    (hrep : 2 ≤ cfg.repeatMax)
    (hec : e.chatId = c) (heu : e.userId = u)
    (hkeep : ∀ t ∈ windowOf st (c, u), e.timestampSeconds - cfg.floodWindowSec ≤ t)
    (hwin : e.timestampSeconds - cfg.floodWindowSec ≤ e.timestampSeconds)
    (hnofire : (windowOf st (c, u)).length + 1 ≤ cfg.floodMaxMsg)
    (hlast : ∀ p, lastOf st (c, u) = some p → p.1 ≠ normalizeText e.text) :
    evaluate cfg st e =
      ((if check_link_spam cfg e.text then Verdict.LinkSpam else Verdict.None),
       { st with
          rateWindows := (setKey st.rateWindows (c, u)
            (windowOf st (c, u) ++ [e.timestampSeconds])),
          lastMsgs := (setKey st.lastMsgs (c, u) (normalizeText e.text, 1)) }) := by
  have hrate := rate_step_full cfg st (c, u) e.timestampSeconds hkeep hwin
  have hdec : decide (cfg.floodMaxMsg < (windowOf st (c, u)).length + 1) = false := by
    rw [decide_eq_false_iff_not]
    omega
  have hlast1 : ∀ p, lastOf { st with rateWindows := (setKey st.rateWindows (c, u)
      (windowOf st (c, u) ++ [e.timestampSeconds])) } (c, u) = some p →
      p.1 ≠ normalizeText e.text := hlast
  have hrepeat := repeat_noFire cfg
    { st with rateWindows := (setKey st.rateWindows (c, u)
        (windowOf st (c, u) ++ [e.timestampSeconds])) } (c, u) e.text hrep hlast1
  simp only [evaluate, check_flood, hec, heu]
  rw [hrate]
  simp only [hdec, Bool.false_eq_true, if_false]
  rw [hrepeat]
  cases hcl : check_link_spam cfg e.text <;> simp [hcl]

/-- The workhorse for C2: starting from a state whose window for the key
holds only timestamps ≥ T, a run of messages of one user all timestamped
inside `[T, T + floodWindowSec]` and never repeating the previously
stored normalized text yields `Flood` exactly on the messages that push
the window size beyond `floodMaxMsg`. -/
lemma runVerdicts_flood_window (cfg : ModConfig) (c u T : Int) (hrep : 2 ≤ cfg.repeatMax) :
    ∀ (es : List MessageEvent) (st : EngineState),
      (∀ t ∈ windowOf st (c, u), T ≤ t) →
      (∀ e ∈ es, e.chatId = c ∧ e.userId = u) →
      (∀ e ∈ es, T ≤ e.timestampSeconds ∧ e.timestampSeconds ≤ T + cfg.floodWindowSec) →
      ((windowOf st (c, u)).length ≤ cfg.floodMaxMsg →
        List.Chain' (fun a b => a ≠ b)
          ((lastOf st (c, u)).elim [] (fun p => [p.1]) ++
            es.map (fun e => normalizeText e.text))) →
      ∀ k, ((runVerdicts cfg st es).get? k = some Verdict.Flood ↔
        (k < es.length ∧ cfg.floodMaxMsg < (windowOf st (c, u)).length + k + 1)) := by
  intro es
  induction es with
  | nil =>
    intro st _ _ _ _ k
    simp [runVerdicts]
  | cons e es ih =>
    intro st hw hkey hts hchain k
    obtain ⟨hec, heu⟩ := hkey e (List.mem_cons_self e es)
    obtain ⟨hT1, hT2⟩ := hts e (List.mem_cons_self e es)
    have hkeep : ∀ t ∈ windowOf st (c, u), e.timestampSeconds - cfg.floodWindowSec ≤ t := by
      intro t htm
      have := hw t htm
      omega
    have hwin : e.timestampSeconds - cfg.floodWindowSec ≤ e.timestampSeconds := by omega
    have hkeyTail : ∀ e2 ∈ es, e2.chatId = c ∧ e2.userId = u :=
      fun e2 h2 => hkey e2 (List.mem_cons_of_mem e h2)
    have htsTail : ∀ e2 ∈ es, T ≤ e2.timestampSeconds ∧
        e2.timestampSeconds ≤ T + cfg.floodWindowSec :=
      fun e2 h2 => hts e2 (List.mem_cons_of_mem e h2)
    by_cases hcase : cfg.floodMaxMsg < (windowOf st (c, u)).length + 1
    · -- the rate window fires on this message
      have heval := evaluate_fire cfg st e c u hec heu hkeep hwin hcase
      have hwinN : windowOf (evaluate cfg st e).2 (c, u) =
          windowOf st (c, u) ++ [e.timestampSeconds] := by
        rw [heval]
        exact windowOf_setRate st (c, u) _
      have hlenN : (windowOf (evaluate cfg st e).2 (c, u)).length =
          (windowOf st (c, u)).length + 1 := by
        rw [hwinN]
        simp
      have hwN : ∀ t ∈ windowOf (evaluate cfg st e).2 (c, u), T ≤ t := by
        rw [hwinN]
        intro t htm
        rcases List.mem_append.mp htm with h | h
        · exact hw t h
        · rw [List.mem_singleton] at h
          omega
      have hchainN : (windowOf (evaluate cfg st e).2 (c, u)).length ≤ cfg.floodMaxMsg →
          List.Chain' (fun a b => a ≠ b)
            ((lastOf (evaluate cfg st e).2 (c, u)).elim [] (fun p => [p.1]) ++
              es.map (fun e => normalizeText e.text)) := by
        rw [hlenN]
        intro hle
        exact absurd hle (by omega)
      have ihN := ih (evaluate cfg st e).2 hwN hkeyTail htsTail hchainN
      have hrun : runVerdicts cfg st (e :: es) =
          Verdict.Flood :: runVerdicts cfg (evaluate cfg st e).2 es := by
        simp only [runVerdicts]
        rw [heval]
      rw [hrun]
      cases k with
      | zero =>
        rw [List.get?_cons_zero]
        simp only [List.length_cons]
        constructor
        · intro _
          exact ⟨by omega, by omega⟩
        · intro _
          trivial
      | succ k =>
        rw [List.get?_cons_succ]
        have ihNk := ihN k
        rw [hlenN] at ihNk
        rw [ihNk]
        simp only [List.length_cons]
        constructor
        · rintro ⟨h1, h2⟩
          exact ⟨by omega, by omega⟩
        · rintro ⟨h1, h2⟩
          exact ⟨by omega, by omega⟩
    · -- the rate window does not fire on this message
      have hnofire : (windowOf st (c, u)).length + 1 ≤ cfg.floodMaxMsg := by omega
      have hchainI := hchain (by omega)
      have hlast : ∀ p, lastOf st (c, u) = some p → p.1 ≠ normalizeText e.text := by
        intro p hp
        rw [hp] at hchainI
        simp only [Option.elim, List.map_cons, List.cons_append, List.nil_append] at hchainI
        exact (List.chain'_cons.mp hchainI).1
      have heval := evaluate_nofire cfg st e c u hrep hec heu hkeep hwin hnofire hlast
      have hwinN : windowOf (evaluate cfg st e).2 (c, u) =
          windowOf st (c, u) ++ [e.timestampSeconds] := by
        rw [heval]
        simp [windowOf, lookupKey_setKey_self]
      have hlenN : (windowOf (evaluate cfg st e).2 (c, u)).length =
          (windowOf st (c, u)).length + 1 := by
        rw [hwinN]
        simp
      have hlastN : lastOf (evaluate cfg st e).2 (c, u) = some (normalizeText e.text, 1) := by
        rw [heval]
        simp [lastOf, lookupKey_setKey_self]
      have hwN : ∀ t ∈ windowOf (evaluate cfg st e).2 (c, u), T ≤ t := by
        rw [hwinN]
        intro t htm
        rcases List.mem_append.mp htm with h | h
        · exact hw t h
        · rw [List.mem_singleton] at h
          omega
      have hchainN : (windowOf (evaluate cfg st e).2 (c, u)).length ≤ cfg.floodMaxMsg →
          List.Chain' (fun a b => a ≠ b)
            ((lastOf (evaluate cfg st e).2 (c, u)).elim [] (fun p => [p.1]) ++
              es.map (fun e2 => normalizeText e2.text)) := by
        intro _
        rw [hlastN]
        simp only [Option.elim, List.cons_append, List.nil_append]
        have : List.Chain' (fun a b => a ≠ b)
            ((lastOf st (c, u)).elim [] (fun p => [p.1]) ++
              (normalizeText e.text :: es.map (fun e2 => normalizeText e2.text))) := by
          simpa using hchainI
        cases hl : lastOf st (c, u) with
        | none =>
          rw [hl] at this
          simpa using this
        | some p =>
          rw [hl] at this
          simp only [Option.elim, List.cons_append, List.nil_append] at this
          exact this.tail
      have ihN := ih (evaluate cfg st e).2 hwN hkeyTail htsTail hchainN
      have hv1 : (evaluate cfg st e).1 ≠ Verdict.Flood := by
        rw [heval]
        cases check_link_spam cfg e.text <;> simp
      have hrun : runVerdicts cfg st (e :: es) =
          (evaluate cfg st e).1 :: runVerdicts cfg (evaluate cfg st e).2 es := rfl
      rw [hrun]
      cases k with
      | zero =>
        rw [List.get?_cons_zero]
        simp only [List.length_cons]
        constructor
        · intro h
          exact absurd (Option.some_inj.mp h) hv1
        · rintro ⟨h1, h2⟩
          exfalso
          omega
      | succ k =>
        rw [List.get?_cons_succ]
        have ihNk := ihN k
        rw [hlenN] at ihNk
        rw [ihNk]
        simp only [List.length_cons]
        constructor
        · rintro ⟨h1, h2⟩
          exact ⟨by omega, by omega⟩
        · rintro ⟨h1, h2⟩
          exact ⟨by omega, by omega⟩

/-- C2 (amended): for any run of messages of one user, all inside one
`FLOOD_WINDOW_SEC` window and with no two consecutive messages sharing
the same normalized text (so the repeat detector cannot fire first,
`REPEAT_MAX ≥ 2`), the engine returns `Flood` exactly on the messages
past the `FLOOD_MAX_MSG` threshold: the crossing message
`FLOOD_MAX_MSG + 1` gets `Flood` and no earlier one does. -/
theorem c2_flood_threshold_amended (cfg : ModConfig) (c u T : Int)
    (events : List MessageEvent)
    (hrep : 2 ≤ cfg.repeatMax)
    (hkey : ∀ e ∈ events, e.chatId = c ∧ e.userId = u)
    (hts : ∀ e ∈ events, T ≤ e.timestampSeconds ∧ e.timestampSeconds ≤ T + cfg.floodWindowSec)
    (hchain : List.Chain' (fun a b => a ≠ b) (events.map (fun e => normalizeText e.text))) :
    ∀ k, ((runVerdicts cfg emptyState events).get? k = some Verdict.Flood ↔
      (k < events.length ∧ cfg.floodMaxMsg < k + 1)) := by
  have hwE : windowOf emptyState (c, u) = [] := rfl
  have hlE : lastOf emptyState (c, u) = none := rfl
  have h := runVerdicts_flood_window cfg c u T hrep events emptyState
    (by rw [hwE]; intro t ht; exact absurd ht (List.not_mem_nil t)) hkey hts
    (by intro _; rw [hlE]; simpa using hchain)
  intro k
  rw [h k, hwE]
  simp

lemma demoFlood_chain : List.Chain' (fun a b => a ≠ b)
    (demoFloodEvents.map (fun e => normalizeText e.text)) := by
  simp only [demoFloodEvents, List.map_cons, List.map_nil, List.chain'_cons,
    List.chain'_singleton, and_true]
  refine ⟨?_, ?_, ?_, ?_, ?_, ?_⟩ <;> decide

/-- Witness for C2: the spec scenario — seven distinct-text messages of
one user within five seconds under the default configuration — yields
`Flood` on message 7 and not on message 1. -/
theorem c2_witness :
    (runVerdicts defaultCfg emptyState demoFloodEvents).get? 6 = some Verdict.Flood ∧
    (runVerdicts defaultCfg emptyState demoFloodEvents).get? 0 ≠ some Verdict.Flood := by
  constructor
  · exact (c2_flood_threshold_amended defaultCfg 1 2 0 demoFloodEvents (by decide) (by decide)
      (by decide) demoFlood_chain 6).mpr (by decide)
  · intro h
    have := (c2_flood_threshold_amended defaultCfg 1 2 0 demoFloodEvents (by decide) (by decide)
      (by decide) demoFlood_chain 0).mp h
    exact absurd this.2 (by decide)

/-- Counterexample to C2 as stated: seven identical "hi" messages within
five seconds satisfy the claim's premises, yet the third message already
receives a `Flood` verdict (the repeat detector fires at `REPEAT_MAX = 3`),
earlier than the crossing message 7. -/
theorem c2_counterexample : ¬ floodClaimAsStated := by
  intro h
  exact h 1 2 0 demoRepeatEvents (by decide) (by decide) (by decide) 2 (by decide) (by decide)

end FlyBot
